import Mathlib

/-!
A shallow embedding of the course-document pipeline of `src/main.py`
(class `CourseBot`): the quality resolver `get_preferred_video_url`
(lines 523-558) and the JSON-path document generator
`generate_formatted_text_file` (lines 560-675).

Conventions of the embedding:
* Python dictionaries with optional keys become structures with `Option`
  fields; `d.get(k, default)` becomes `Option.getD`.
* Python `None`-or-string values become `Option String`; the truthiness
  test `if s:` on such a value is `pyTruthy` (false exactly on `None` and
  on the empty string).
* Python string comparison is by code point; it is embedded as a
  structural lexicographic comparison on the character lists (`listLt`,
  `listLe`), which agrees with it on all strings.
* `str.lower()` / `str.upper()` are embedded as per-character
  `Char.toLower` / `Char.toUpper` maps (the ASCII fragment of the Python
  functions; all quality labels and markers in play are ASCII).
* `re.search(r'(\d+)', title)` (the first maximal run of digits) is
  embedded as `firstDigitRun`, with `Char.isDigit` for `\d`.
* Python's stable `list.sort(key=...)` is embedded as
  `List.insertionSort` with the corresponding total preorder; insertion
  sort is stable, so it computes exactly the same output list.
-/

namespace CourseBot

/-- One element of a class's `mp4Recordings` list: a dictionary with
optional `quality` and `url` keys (main.py reads both with `.get`). -/
structure Recording where
  quality : Option String
  url : Option String
deriving DecidableEq

/-- One element of a class's `classPdf` list: optional `name` and `url`. -/
structure Pdf where
  name : Option String
  url : Option String
deriving DecidableEq

/-- A class record of the primary payload shape (the fields
`generate_formatted_text_file` and `get_preferred_video_url` read). -/
structure ClassData where
  title : Option String
  teacherName : Option String
  class_link : Option String
  mp4Recordings : List Recording
  classPdf : List Pdf
deriving DecidableEq

/-- A topic record of `classes_data`: `topicName` and its `classes`. -/
structure Topic where
  topicName : Option String
  classes : List ClassData
deriving DecidableEq

/-- One practice-sheet PDF as read by the practice-sheets section of
`generate_formatted_text_file` (`category.categoryName` is flattened to
one optional field, matching the chained `.get` reads). -/
structure SheetPdf where
  title : Option String
  teacherName : Option String
  uploadPdf : Option String
  categoryName : Option String
  topic_name : Option String
deriving DecidableEq

/-- The practice-sheets payload passed to `generate_formatted_text_file`
(only its `pdfs` list is read there). -/
structure PracticeSheets where
  pdfs : List SheetPdf
deriving DecidableEq

/-- Python truthiness of an optional string: `None` and `""` are falsy. -/
def pyTruthy (o : Option String) : Bool :=
  o.getD "" ≠ ""

/-- `startswith` on character lists. -/
def startsChars : List Char → List Char → Bool
  | [], _ => true
  | _ :: _, [] => false
  | p :: ps, c :: cs => p = c && startsChars ps cs

/-- `s.startswith(('http://', 'https://'))` from main.py. -/
def isHttpUrl (s : String) : Bool :=
  startsChars "http://".data s.data || startsChars "https://".data s.data

/-- `str.lower()` (per-character). -/
def pyLower (s : String) : String :=
  String.mk (s.data.map Char.toLower)

/-- `str.upper()` (per-character). -/
def pyUpper (s : String) : String :=
  String.mk (s.data.map Char.toUpper)

/-- The fixed fallback ladder `quality_priority` of main.py line 541. -/
def qualityPriority : List String :=
  ["1080p", "720p", "480p", "360p", "240p"]

/-- The exact-match loop of main.py lines 535-538: first recording whose
lowercased `quality` (default `''`) equals the lowercased request. -/
def exactLoop (pq : String) : List Recording → Option Recording
  | [] => none
  | r :: rest =>
    if pyLower (r.quality.getD "") = pyLower pq then some r else exactLoop pq rest

/-- The inner loop of main.py lines 545-547: first recording whose
lowercased `quality` equals the given ladder entry. -/
def qualityLoop (q : String) : List Recording → Option Recording
  | [] => none
  | r :: rest =>
    if pyLower (r.quality.getD "") = q then some r else qualityLoop q rest

/-- The outer ladder walk of main.py lines 544-547, over the remaining
ladder entries from the requested position downward. -/
def ladderLoop (recs : List Recording) : List String → Option Recording
  | [] => none
  | q :: qs =>
    match qualityLoop q recs with
    | some r => some r
    | none => ladderLoop recs qs

/-- The `class_link` fallback of main.py lines 529-532 and 554-558:
return the link when it is a well-formed http(s) URL, else nothing.
(`if class_link and class_link.startswith(...)`: the extra truthiness
test is redundant because `''` does not start with `http`.) -/
def classLinkFallback (link : Option String) : Option String :=
  match link with
  | some l => if isHttpUrl l then some l else none
  | none => none

/-- `get_preferred_video_url` of main.py lines 523-558, branch for
branch. The final `match` on `mp4_recordings` re-examines the list just
as the Python `if mp4_recordings:` on line 550 does; its empty branch is
the trailing `class_link` fallback of lines 553-558. -/
def get_preferred_video_url (class_data : ClassData) (preferred_quality : String) :
    Option String :=
  let mp4_recordings := class_data.mp4Recordings
  if mp4_recordings.isEmpty then
    classLinkFallback class_data.class_link
  else
    match exactLoop preferred_quality mp4_recordings with
    | some r => r.url
    | none =>
      match
        (if qualityPriority.contains (pyLower preferred_quality) then
          ladderLoop mp4_recordings
            (qualityPriority.drop (qualityPriority.indexOf (pyLower preferred_quality)))
        else none) with
      | some r => r.url
      | none =>
        match mp4_recordings with
        | r :: _ => r.url
        | [] => classLinkFallback class_data.class_link

/-- `get_preferred_video_url` with the trailing `class_link` fallback of
lines 553-558 replaced by `none`; used to state that this fallback is
dead code. -/
def get_preferred_video_url_pruned (class_data : ClassData) (preferred_quality : String) :
    Option String :=
  let mp4_recordings := class_data.mp4Recordings
  if mp4_recordings.isEmpty then
    classLinkFallback class_data.class_link
  else
    match exactLoop preferred_quality mp4_recordings with
    | some r => r.url
    | none =>
      match
        (if qualityPriority.contains (pyLower preferred_quality) then
          ladderLoop mp4_recordings
            (qualityPriority.drop (qualityPriority.indexOf (pyLower preferred_quality)))
        else none) with
      | some r => r.url
      | none =>
        match mp4_recordings with
        | r :: _ => r.url
        | [] => none

/-! ### Python string order (code-point lexicographic) -/

/-- Strict lexicographic order on character lists by code point; the
order Python uses to compare strings. -/
def listLt : List Char → List Char → Bool
  | [], [] => false
  | [], _ :: _ => true
  | _ :: _, [] => false
  | a :: as, b :: bs =>
    if a < b then true
    else if a = b then listLt as bs
    else false

/-- Non-strict lexicographic order on character lists by code point. -/
def listLe : List Char → List Char → Bool
  | [], _ => true
  | _ :: _, [] => false
  | a :: as, b :: bs =>
    if a < b then true
    else if a = b then listLe as bs
    else false

/-- Python `a < b` on strings. -/
def strLt (a b : String) : Bool := listLt a.data b.data

/-- Python `a <= b` on strings. -/
def strLe (a b : String) : Bool := listLe a.data b.data

/-! ### Normalization (the collection loop of lines 569-611) -/

/-- The first maximal run of digits in a character list, i.e. what
`re.search(r'(\d+)', s)` captures. -/
def firstDigitRun : List Char → Option (List Char)
  | [] => none
  | c :: cs =>
    if c.isDigit then some (c :: cs.takeWhile (fun d => d.isDigit))
    else firstDigitRun cs

/-- `str.zfill(2)`: left-pad with zeros to length at least 2. -/
def zfill2 (s : String) : String :=
  if s.length < 2 then String.mk (List.replicate (2 - s.length) '0') ++ s else s

/-- The class-number extraction of main.py lines 581-585: start from
`"01"`, and when the title is truthy and contains digits, take the first
run of digits zero-filled to width 2. -/
def extract_class_number (class_title : String) : String :=
  if class_title = "" then "01"
  else
    match firstDigitRun class_title.data with
    | some ds => zfill2 (String.mk ds)
    | none => "01"

/-- A class-number specification written from the claim wording alone:
the first run of digits in the title zero-padded to at least 2 digits,
`"01"` when the title has no digits. -/
def classNumberSpec (title : String) : String :=
  match firstDigitRun title.data with
  | some ds => zfill2 (String.mk ds)
  | none => "01"

/-- One collected class PDF (the dicts appended on lines 597-601). -/
structure PdfInfo where
  name : String
  url : String
  teacher : String
deriving DecidableEq

/-- One collected class entry (the dicts appended on lines 604-611). -/
structure ClassInfo where
  class_number : String
  class_title : String
  teacher_name : String
  topic_name : String
  video_url : String
  pdfs : List PdfInfo
deriving DecidableEq

/-- The PDF collection loop of main.py lines 591-601: keep exactly the
`classPdf` entries whose `url` is present and starts with `http://` or
`https://`, naming nameless ones `"Unknown PDF"`. -/
def collectPdfs (teacher : String) : List Pdf → List PdfInfo
  | [] => []
  | p :: rest =>
    match p.url with
    | some u =>
      if isHttpUrl u then
        ⟨p.name.getD "Unknown PDF", u, teacher⟩ :: collectPdfs teacher rest
      else collectPdfs teacher rest
    | none => collectPdfs teacher rest

/-- The per-class body of the collection loop (lines 576-611): defaults
for title and teacher, class-number extraction, quality resolution, PDF
collection, and the `if video_url:` guard that drops the class when the
resolved URL is `None` or empty. -/
def normalizeClass (topic_name preferred_quality : String) (cd : ClassData) :
    Option ClassInfo :=
  let class_title := cd.title.getD ""
  let teacher_name := cd.teacherName.getD "Unknown Teacher"
  let class_number := extract_class_number class_title
  let pdfs := collectPdfs teacher_name cd.classPdf
  match get_preferred_video_url cd preferred_quality with
  | some u =>
    if u = "" then none
    else some ⟨class_number, class_title, teacher_name, topic_name, u, pdfs⟩
  | none => none

/-- The full collection pass over `classes_data` (lines 572-611),
producing `all_classes` in input order. -/
def buildAllClasses (classes_data : List Topic) (preferred_quality : String) :
    List ClassInfo :=
  classes_data.flatMap fun t =>
    t.classes.filterMap (normalizeClass (t.topicName.getD "Unknown Topic") preferred_quality)

/-! ### Sorting (line 614) -/

/-- The sort key order of `all_classes.sort(key=lambda x: (x['topic_name'],
x['class_number']))`: lexicographic on the pair, each component compared
as a Python string. -/
def classLe (a b : ClassInfo) : Bool :=
  strLt a.topic_name b.topic_name ||
    (a.topic_name = b.topic_name && strLe a.class_number b.class_number)

/-- `classLe` as a relation, for `List.insertionSort`. -/
def classLeR (a b : ClassInfo) : Prop := classLe a b = true

instance : DecidableRel classLeR := fun a b => by
  unfold classLeR; infer_instance

/-- The sorted `all_classes` list of main.py line 614. Python's
`list.sort` is a stable sort by the key; insertion sort with the same
total preorder computes the identical output list. -/
def sortedClasses (classes_data : List Topic) (preferred_quality : String) :
    List ClassInfo :=
  List.insertionSort classLeR (buildAllClasses classes_data preferred_quality)

/-! ### Rendering (lines 563-675)

The Python function accumulates a `lines` list and joins it with `\n`;
the embedding builds the same list. `course_info` is accepted by the
Python function but never read, so it is omitted here. The timestamp
`datetime.now().strftime(...)` is passed in as the string `now`. -/

/-- `"=" * 60`. -/
def eqRule : String := String.mk (List.replicate 60 '=')

/-- `"-" * 40`. -/
def dashRule : String := String.mk (List.replicate 40 '-')

/-- The class identification line of main.py line 629. -/
def videoLine (c : ClassInfo) : String :=
  "Class-" ++ c.class_number ++ " || " ++ c.class_title ++ " | " ++ c.teacher_name

/-- One class-PDF line of main.py line 637. -/
def pdfLine (p : PdfInfo) : String :=
  "  • " ++ p.name ++ ": " ++ p.url

/-- The per-class lines of main.py lines 629-640 (identification line,
video line, optional PDF sub-list, trailing blank line). -/
def classBlock (c : ClassInfo) : List String :=
  [videoLine c, "🎥 Video: " ++ c.video_url] ++
    (if c.pdfs.isEmpty then [] else "📎 Class PDFs:" :: c.pdfs.map pdfLine) ++
    [""]

/-- The grouping loop of main.py lines 617-640: walk the sorted classes
with the `current_topic` state, emitting a topic header (preceded by a
blank separator except for the first topic) whenever the topic name
changes. -/
def emitClasses : Option String → List ClassInfo → List String
  | _, [] => []
  | cur, c :: rest =>
    (if cur = some c.topic_name then []
     else
       (if cur = none then [] else [""]) ++ ["📌 " ++ pyUpper c.topic_name, dashRule]) ++
    classBlock c ++ emitClasses (some c.topic_name) rest

/-- Append a practice sheet to its category group, preserving the
insertion order of the Python dict built on lines 651-656. -/
def addToGroups : List (String × List SheetPdf) → String → SheetPdf →
    List (String × List SheetPdf)
  | [], k, p => [(k, [p])]
  | (k', ps) :: rest, k, p =>
    if k' = k then (k', ps ++ [p]) :: rest else (k', ps) :: addToGroups rest k p

/-- The grouping of practice sheets by `category.categoryName` (default
`'Unknown'`) of main.py lines 651-656. -/
def groupByCategory (pdfs : List SheetPdf) : List (String × List SheetPdf) :=
  pdfs.foldl (fun gs p => addToGroups gs (p.categoryName.getD "Unknown") p) []

/-- The numbered sheet entries of main.py lines 662-667. A missing
`uploadPdf` renders as the Python string `"None"` (an f-string of
`None`). -/
def sheetPdfLines : Nat → List SheetPdf → List String
  | _, [] => []
  | i, p :: rest =>
    [Nat.repr i ++ ". " ++ p.title.getD "Untitled",
     "   👨‍🏫 Teacher: " ++ p.teacherName.getD "Unknown",
     "   📚 Topic: " ++ p.topic_name.getD "Unknown",
     "   🔗 URL: " ++ (match p.uploadPdf with | some u => u | none => "None"),
     ""] ++ sheetPdfLines (i + 1) rest

/-- One category block of main.py lines 658-667. -/
def categoryLines (g : String × List SheetPdf) : List String :=
  ("\n📁 " ++ pyUpper g.1) :: dashRule :: sheetPdfLines 1 g.2

/-- The practice-sheets section of main.py lines 643-667, emitted only
when the payload is present and its `pdfs` list is non-empty. -/
def practiceLines (ps : Option PracticeSheets) : List String :=
  match ps with
  | none => []
  | some s =>
    if s.pdfs.isEmpty then []
    else
      ("\n\n" ++ eqRule) :: "📄 PRACTICE SHEETS 📄" :: eqRule ::
        (groupByCategory s.pdfs).flatMap categoryLines

/-- The course header of main.py lines 566-567. -/
def headerLines : List String :=
  ["📚 COURSE CONTENT 📚\n", eqRule]

/-- The footer of main.py lines 670-673. -/
def footerLines (preferred_quality now : String) : List String :=
  ["\n" ++ eqRule,
   "🎥 Video Quality: " ++ pyUpper preferred_quality,
   "📅 Generated on: " ++ now,
   eqRule]

/-- The full `lines` list of `generate_formatted_text_file`. -/
def renderLines (classes_data : List Topic) (preferred_quality : String)
    (practice_sheets : Option PracticeSheets) (now : String) : List String :=
  headerLines ++ emitClasses none (sortedClasses classes_data preferred_quality) ++
    practiceLines practice_sheets ++ footerLines preferred_quality now

/-- `generate_formatted_text_file` itself: the lines joined with `\n`. -/
def generate_formatted_text_file (classes_data : List Topic)
    (preferred_quality : String) (practice_sheets : Option PracticeSheets)
    (now : String) : String :=
  String.intercalate "\n" (renderLines classes_data preferred_quality practice_sheets now)

/-- A rendered line is a topic section header exactly when it starts
with the `📌` marker (no other emitted line starts with it). -/
def isTopicHeader (l : String) : Bool :=
  match l.data with
  | c :: _ => c = '📌'
  | [] => false

/-- Number of topic section headers in a rendered line list. -/
def countTopicHeaders (lines : List String) : Nat :=
  (lines.filter isTopicHeader).length

/-- The number of topic-change points the grouping loop sees when
walking names from a given `current_topic` state. -/
def changes : Option String → List String → Nat
  | _, [] => 0
  | cur, n :: ns => (if cur = some n then 0 else 1) + changes (some n) ns

/-! ### Concrete sample inputs used by witnesses and counterexamples -/

/-- A payload with one topic whose only class resolves to no video URL
(no recordings, no `class_link`), but which carries a well-formed class
PDF. -/
def noVideoPayload : List Topic :=
  [⟨some "T", [⟨some "Algebra 5", some "Mr X", none, [],
      [⟨some "Notes", some "https://x.pdf"⟩]⟩]⟩]

/-- A payload with one topic whose only class has a 720p recording and
one well-formed class PDF. -/
def goodPayload : List Topic :=
  [⟨some "T", [⟨some "Algebra 5", some "Mr X", none,
      [⟨some "720p", some "https://v.mp4"⟩],
      [⟨some "Notes", some "https://x.pdf"⟩]⟩]⟩]

/-- The class entry that `goodPayload`'s class normalizes to. -/
def goodClassInfo : ClassInfo :=
  ⟨"05", "Algebra 5", "Mr X", "T", "https://v.mp4",
    [⟨"Notes", "https://x.pdf", "Mr X"⟩]⟩

/-- A one-sheet practice-sheet payload. -/
def oneSheet : PracticeSheets :=
  ⟨[⟨some "Sheet 1", some "T1", some "https://p.pdf", some "Cat", some "T"⟩]⟩

/-- A class record with recordings at 480p and 240p (the spec's §8
resolver scenario). -/
def twoRecClass : ClassData :=
  ⟨none, none, none, [⟨some "480p", some "A"⟩, ⟨some "240p", some "B"⟩], []⟩

/-- A class record with no recordings and a well-formed `class_link`. -/
def linkOnlyClass : ClassData :=
  ⟨none, none, some "https://link", [], []⟩

/-! ### Lemmas about the lexicographic string order -/

theorem listLe_refl : ∀ l : List Char, listLe l l = true
  | [] => rfl
  | a :: as => by simp [listLe, listLe_refl as]

theorem listLe_total : ∀ a b : List Char, listLe a b = true ∨ listLe b a = true
  | [], _ => Or.inl rfl
  | _ :: _, [] => Or.inr rfl
  | a :: as, b :: bs => by
    rcases lt_trichotomy a b with h | h | h
    · left; simp [listLe, h]
    · subst h
      rcases listLe_total as bs with ih | ih
      · left; simp [listLe, ih]
      · right; simp [listLe, ih]
    · right; simp [listLe, h]

theorem listLe_trans : ∀ a b c : List Char,
    listLe a b = true → listLe b c = true → listLe a c = true
  | [], _, _ => fun _ _ => rfl
  | _ :: _, [], _ => fun h _ => by simp [listLe] at h
  | _ :: _, _ :: _, [] => fun _ h => by simp [listLe] at h
  | a :: as, b :: bs, c :: cs => by
    intro h1 h2
    by_cases hab : a < b
    · by_cases hbc : b < c
      · simp [listLe, lt_trans hab hbc]
      · by_cases hbc' : b = c
        · subst hbc'; simp [listLe, hab]
        · simp [listLe, hbc, hbc'] at h2
    · by_cases hab' : a = b
      · subst hab'
        simp only [listLe, hab, if_false, if_pos rfl, lt_self_iff_false] at h1
        by_cases hac : a < c
        · simp [listLe, hac]
        · by_cases hac' : a = c
          · subst hac'
            simp only [listLe, lt_self_iff_false, if_false, if_pos rfl] at h2 ⊢
            exact listLe_trans as bs cs h1 h2
          · simp [listLe, hac, hac'] at h2
      · simp [listLe, hab, hab'] at h1

theorem listLe_antisymm : ∀ a b : List Char,
    listLe a b = true → listLe b a = true → a = b
  | [], [] => fun _ _ => rfl
  | [], _ :: _ => fun _ h => by simp [listLe] at h
  | _ :: _, [] => fun h _ => by simp [listLe] at h
  | a :: as, b :: bs => fun h1 h2 => by
    rcases lt_trichotomy a b with h | h | h
    · simp [listLe, asymm h, (ne_of_lt h).symm] at h2
    · subst h
      simp only [listLe, lt_self_iff_false, if_false, if_pos rfl] at h1 h2
      rw [listLe_antisymm as bs h1 h2]
    · simp [listLe, asymm h, (ne_of_lt h).symm] at h1

theorem listLt_eq_not_listLe : ∀ a b : List Char, listLt a b = !listLe b a
  | [], [] => rfl
  | [], _ :: _ => rfl
  | _ :: _, [] => rfl
  | a :: as, b :: bs => by
    rcases lt_trichotomy a b with h | h | h
    · simp [listLt, listLe, h, asymm h, (ne_of_lt h).symm]
    · subst h
      simp only [listLt, listLe, lt_self_iff_false, if_false, if_pos rfl]
      exact listLt_eq_not_listLe as bs
    · simp [listLt, listLe, h, asymm h, (ne_of_lt h).symm]

theorem strLe_refl (a : String) : strLe a a = true := listLe_refl a.data

theorem strLe_total (a b : String) : strLe a b = true ∨ strLe b a = true :=
  listLe_total a.data b.data

theorem strLe_trans {a b c : String} (h1 : strLe a b = true) (h2 : strLe b c = true) :
    strLe a c = true :=
  listLe_trans a.data b.data c.data h1 h2

theorem strLe_antisymm {a b : String} (h1 : strLe a b = true) (h2 : strLe b a = true) :
    a = b :=
  String.ext (listLe_antisymm a.data b.data h1 h2)

theorem strLt_eq_not_strLe (a b : String) : strLt a b = !strLe b a :=
  listLt_eq_not_listLe a.data b.data

theorem strLt_self (a : String) : strLt a a = false := by
  rw [strLt_eq_not_strLe, strLe_refl a]
  rfl

theorem strLe_of_strLt {a b : String} (h : strLt a b = true) : strLe a b = true := by
  rw [strLt_eq_not_strLe] at h
  rcases strLe_total a b with h' | h'
  · exact h'
  · rw [h'] at h
    simp at h

theorem strLt_trans {a b c : String} (h1 : strLt a b = true) (h2 : strLt b c = true) :
    strLt a c = true := by
  rw [strLt_eq_not_strLe] at h1 h2 ⊢
  cases hca : strLe c a with
  | false => simp
  | true =>
    have hab : strLe a b = true := by
      rcases strLe_total a b with h | h
      · exact h
      · rw [h] at h1
        simp at h1
    have hcb := strLe_trans hca hab
    rw [hcb] at h2
    simp at h2

theorem strLe_of_not_strLt {a b : String} (h : ¬ strLt a b = true) : strLe b a = true := by
  rw [strLt_eq_not_strLe] at h
  simpa using h

/-! ### The sort-key order is total and transitive -/

theorem classLe_total (a b : ClassInfo) : classLeR a b ∨ classLeR b a := by
  unfold classLeR classLe
  by_cases h1 : strLt a.topic_name b.topic_name = true
  · left; simp [h1]
  · by_cases h2 : strLt b.topic_name a.topic_name = true
    · right; simp [h2]
    · have hba := strLe_of_not_strLt h1
      have hab := strLe_of_not_strLt h2
      have heq : a.topic_name = b.topic_name := strLe_antisymm hab hba
      rcases strLe_total a.class_number b.class_number with hn | hn
      · left; simp [heq, hn]
      · right; simp [heq, hn]

theorem classLe_trans (a b c : ClassInfo) :
    classLeR a b → classLeR b c → classLeR a c := by
  unfold classLeR classLe
  intro h1 h2
  rw [Bool.or_eq_true] at h1 h2 ⊢
  rcases h1 with h1 | h1
  · rcases h2 with h2 | h2
    · exact Or.inl (strLt_trans h1 h2)
    · rw [Bool.and_eq_true, decide_eq_true_iff] at h2
      exact Or.inl (h2.1 ▸ h1)
  · rw [Bool.and_eq_true, decide_eq_true_iff] at h1
    rcases h2 with h2 | h2
    · exact Or.inl (h1.1 ▸ h2)
    · rw [Bool.and_eq_true, decide_eq_true_iff] at h2
      refine Or.inr ?_
      rw [Bool.and_eq_true, decide_eq_true_iff]
      exact ⟨h1.1.trans h2.1, strLe_trans h1.2 h2.2⟩

instance : IsTotal ClassInfo classLeR := ⟨classLe_total⟩

instance : IsTrans ClassInfo classLeR := ⟨classLe_trans⟩

theorem sortedClasses_sorted (classes_data : List Topic) (pq : String) :
    (sortedClasses classes_data pq).Pairwise classLeR :=
  List.sorted_insertionSort classLeR (buildAllClasses classes_data pq)

theorem sortedClasses_perm (classes_data : List Topic) (pq : String) :
    (sortedClasses classes_data pq).Perm (buildAllClasses classes_data pq) :=
  List.perm_insertionSort classLeR (buildAllClasses classes_data pq)

/-- The sort key is primarily the topic name: consecutive sorted entries
have non-decreasing topic names. -/
theorem classLeR_topic_le {a b : ClassInfo} (h : classLeR a b) :
    strLe a.topic_name b.topic_name = true := by
  unfold classLeR classLe at h
  rw [Bool.or_eq_true] at h
  rcases h with h | h
  · exact strLe_of_strLt h
  · rw [Bool.and_eq_true, decide_eq_true_iff] at h
    rw [h.1]
    exact strLe_refl _

/-! ### Lemmas about the quality resolver -/

theorem exactLoop_mem {pq : String} : ∀ {recs : List Recording} {r : Recording},
    exactLoop pq recs = some r → r ∈ recs
  | [], _, h => by simp [exactLoop] at h
  | x :: rest, r, h => by
    rw [exactLoop] at h
    by_cases hc : pyLower (x.quality.getD "") = pyLower pq
    · rw [if_pos hc] at h
      cases h
      exact List.mem_cons_self _ _
    · rw [if_neg hc] at h
      exact List.mem_cons_of_mem _ (exactLoop_mem h)

theorem qualityLoop_mem {q : String} : ∀ {recs : List Recording} {r : Recording},
    qualityLoop q recs = some r → r ∈ recs
  | [], _, h => by simp [qualityLoop] at h
  | x :: rest, r, h => by
    rw [qualityLoop] at h
    by_cases hc : pyLower (x.quality.getD "") = q
    · rw [if_pos hc] at h
      cases h
      exact List.mem_cons_self _ _
    · rw [if_neg hc] at h
      exact List.mem_cons_of_mem _ (qualityLoop_mem h)

theorem ladderLoop_mem {recs : List Recording} : ∀ {qs : List String} {r : Recording},
    ladderLoop recs qs = some r → r ∈ recs
  | [], _, h => by simp [ladderLoop] at h
  | q :: qs, r, h => by
    rw [ladderLoop] at h
    cases hq : qualityLoop q recs with
    | some x =>
      rw [hq] at h
      cases h
      exact qualityLoop_mem hq
    | none =>
      rw [hq] at h
      exact ladderLoop_mem h

theorem exactLoop_eq_find (pq : String) : ∀ recs : List Recording,
    exactLoop pq recs = recs.find? (fun r => pyLower (r.quality.getD "") = pyLower pq)
  | [] => rfl
  | x :: rest => by
    rw [exactLoop, List.find?]
    by_cases hc : pyLower (x.quality.getD "") = pyLower pq
    · simp [hc]
    · simp [hc, exactLoop_eq_find pq rest]

theorem qualityLoop_eq_find (q : String) : ∀ recs : List Recording,
    qualityLoop q recs = recs.find? (fun r => pyLower (r.quality.getD "") = q)
  | [] => rfl
  | x :: rest => by
    rw [qualityLoop, List.find?]
    by_cases hc : pyLower (x.quality.getD "") = q
    · simp [hc]
    · simp [hc, qualityLoop_eq_find q rest]

theorem ladderLoop_eq_findSome (recs : List Recording) : ∀ qs : List String,
    ladderLoop recs qs =
      qs.findSome? (fun q => recs.find? (fun r => pyLower (r.quality.getD "") = q))
  | [] => rfl
  | q :: qs => by
    rw [ladderLoop, List.findSome?]
    rw [← qualityLoop_eq_find]
    cases hq : qualityLoop q recs with
    | some x => rfl
    | none => exact ladderLoop_eq_findSome recs qs

/-- Whenever the recordings list is non-empty, the resolver's result is
the `url` field of one of the recordings. -/
theorem gpvu_mem (cd : ClassData) (pq : String) (h : cd.mp4Recordings ≠ []) :
    ∃ r ∈ cd.mp4Recordings, get_preferred_video_url cd pq = r.url := by
  have hne : cd.mp4Recordings.isEmpty = false := by
    simpa [List.isEmpty_iff] using h
  unfold get_preferred_video_url
  simp only [hne, Bool.false_eq_true, if_false]
  cases hex : exactLoop pq cd.mp4Recordings with
  | some r =>
    exact ⟨r, exactLoop_mem hex, by simp [hex]⟩
  | none =>
    simp only [hex]
    cases hl : (if qualityPriority.contains (pyLower pq) then
        ladderLoop cd.mp4Recordings
          (qualityPriority.drop (qualityPriority.indexOf (pyLower pq)))
      else none) with
    | some r =>
      refine ⟨r, ?_, by simp [hl]⟩
      by_cases hc : qualityPriority.contains (pyLower pq)
      · rw [if_pos hc] at hl
        exact ladderLoop_mem hl
      · rw [if_neg hc] at hl
        cases hl
    | none =>
      simp only [hl]
      cases hrec : cd.mp4Recordings with
      | nil => exact absurd hrec h
      | cons r t =>
        exact ⟨r, List.mem_cons_self _ _, rfl⟩

/-! ### Counting topic headers in the rendered line list

No emitted line other than a topic header starts with the `📌`
character, so `countTopicHeaders` counts exactly the header emissions of
the grouping loop. -/

theorem count_append (l₁ l₂ : List String) :
    countTopicHeaders (l₁ ++ l₂) = countTopicHeaders l₁ + countTopicHeaders l₂ := by
  unfold countTopicHeaders
  rw [List.filter_append, List.length_append]

theorem count_nil : countTopicHeaders [] = 0 := rfl

theorem count_cons (l : String) (ls : List String) :
    countTopicHeaders (l :: ls) =
      (if isTopicHeader l then 1 else 0) + countTopicHeaders ls := by
  unfold countTopicHeaders
  rw [List.filter_cons]
  cases h : isTopicHeader l <;> simp [h, Nat.add_comm]

theorem count_pdfLines (ps : List PdfInfo) :
    countTopicHeaders (ps.map pdfLine) = 0 := by
  induction ps with
  | nil => rfl
  | cons p rest ih =>
    rw [List.map_cons, count_cons, ih]
    have h : isTopicHeader (pdfLine p) = false := rfl
    rw [h]
    simp

theorem count_classBlock (c : ClassInfo) : countTopicHeaders (classBlock c) = 0 := by
  have h1 : isTopicHeader (videoLine c) = false := rfl
  have h2 : isTopicHeader ("🎥 Video: " ++ c.video_url) = false := rfl
  have h3 : isTopicHeader "" = false := rfl
  have h4 : isTopicHeader "📎 Class PDFs:" = false := rfl
  unfold classBlock
  rw [count_append, count_append]
  cases hp : c.pdfs.isEmpty with
  | true => simp [count_cons, count_nil, h1, h2, h3]
  | false =>
    rw [if_neg (by simp)]
    simp [count_cons, count_nil, count_pdfLines, h1, h2, h3, h4]

theorem count_emitClasses : ∀ (cur : Option String) (l : List ClassInfo),
    countTopicHeaders (emitClasses cur l) = changes cur (l.map ClassInfo.topic_name)
  | _, [] => rfl
  | cur, c :: rest => by
    rw [emitClasses, List.map_cons, changes]
    rw [count_append, count_append, count_classBlock,
      count_emitClasses (some c.topic_name) rest]
    by_cases hcur : cur = some c.topic_name
    · rw [if_pos hcur, if_pos hcur, count_nil]
    · rw [if_neg hcur, if_neg hcur, count_append]
      have hhdr : countTopicHeaders ["📌 " ++ pyUpper c.topic_name, dashRule] = 1 := by
        rw [count_cons, count_cons, count_nil]
        have h1 : isTopicHeader ("📌 " ++ pyUpper c.topic_name) = true := rfl
        have h2 : isTopicHeader dashRule = false := by decide
        rw [h1, h2]
        simp
      rw [hhdr]
      by_cases hnone : cur = none
      · rw [if_pos hnone, count_nil]
      · rw [if_neg hnone, count_cons, count_nil]
        have h3 : isTopicHeader "" = false := by decide
        rw [h3]
        simp

theorem digitChar_ne_pin (m : Nat) : Nat.digitChar m ≠ '📌' := by
  rcases Nat.lt_or_ge m 16 with h | h
  · interval_cases m <;> decide
  · have h0 : Nat.digitChar m = '*' := by
      unfold Nat.digitChar
      repeat rw [if_neg (by omega)]
    rw [h0]
    decide

theorem toDigitsCore_ne_pin (b : Nat) : ∀ (fuel n : Nat) (ds : List Char),
    (∀ c ∈ ds, c ≠ '📌') → ∀ c ∈ Nat.toDigitsCore b fuel n ds, c ≠ '📌'
  | 0, _, _, hds => hds
  | fuel + 1, n, ds, hds => by
    simp only [Nat.toDigitsCore]
    by_cases h : n / b = 0
    · rw [if_pos h]
      intro c hc
      rcases List.mem_cons.mp hc with h1 | h1
      · subst h1
        exact digitChar_ne_pin _
      · exact hds c h1
    · rw [if_neg h]
      refine toDigitsCore_ne_pin b fuel (n / b) _ ?_
      intro c hc
      rcases List.mem_cons.mp hc with h1 | h1
      · subst h1
        exact digitChar_ne_pin _
      · exact hds c h1

theorem toDigitsCore_eq_nil (b : Nat) : ∀ (fuel n : Nat) (ds : List Char),
    Nat.toDigitsCore b fuel n ds = [] → ds = [] ∧ fuel = 0
  | 0, _, _ => fun h => ⟨h, rfl⟩
  | fuel + 1, n, ds => by
    simp only [Nat.toDigitsCore]
    by_cases h : n / b = 0
    · rw [if_pos h]
      intro hc
      cases hc
    · rw [if_neg h]
      intro hc
      rcases toDigitsCore_eq_nil b fuel (n / b) _ hc with ⟨h1, -⟩
      cases h1

theorem repr_head_ne_pin (i : Nat) :
    ∃ c cs, (Nat.repr i).data = c :: cs ∧ c ≠ '📌' := by
  have h1 : Nat.toDigits 10 i ≠ [] := by
    intro h
    rcases toDigitsCore_eq_nil 10 (i + 1) i [] h with ⟨-, h2⟩
    exact Nat.succ_ne_zero i h2
  have h2 : ∀ c ∈ Nat.toDigits 10 i, c ≠ '📌' :=
    toDigitsCore_ne_pin 10 (i + 1) i [] (by simp)
  cases hd : Nat.toDigits 10 i with
  | nil => exact absurd hd h1
  | cons c cs =>
    refine ⟨c, cs, ?_, h2 c (by rw [hd]; exact List.mem_cons_self _ _)⟩
    show (List.asString (Nat.toDigits 10 i)).data = c :: cs
    rw [hd]
    rfl

theorem isTopicHeader_numbered (i : Nat) (s t : String) :
    isTopicHeader (Nat.repr i ++ s ++ t) = false := by
  obtain ⟨c, cs, hd, hc⟩ := repr_head_ne_pin i
  unfold isTopicHeader
  rw [String.data_append, String.data_append, hd, List.cons_append, List.cons_append]
  simpa using hc

theorem count_sheetPdfLines : ∀ (i : Nat) (l : List SheetPdf),
    countTopicHeaders (sheetPdfLines i l) = 0
  | _, [] => rfl
  | i, p :: rest => by
    rw [sheetPdfLines, count_append, count_sheetPdfLines (i + 1) rest]
    have h1 := isTopicHeader_numbered i ". " (p.title.getD "Untitled")
    have h2 : isTopicHeader ("   👨‍🏫 Teacher: " ++ p.teacherName.getD "Unknown") = false := rfl
    have h3 : isTopicHeader ("   📚 Topic: " ++ p.topic_name.getD "Unknown") = false := rfl
    have h4 : isTopicHeader ("   🔗 URL: " ++
      (match p.uploadPdf with | some u => u | none => "None")) = false := rfl
    have h5 : isTopicHeader "" = false := rfl
    simp [count_cons, count_nil, h1, h2, h3, h4, h5]

theorem count_categoryLines (g : String × List SheetPdf) :
    countTopicHeaders (categoryLines g) = 0 := by
  unfold categoryLines
  rw [count_cons, count_cons, count_sheetPdfLines]
  have h1 : isTopicHeader ("\n📁 " ++ pyUpper g.1) = false := rfl
  have h2 : isTopicHeader dashRule = false := by decide
  rw [h1, h2]
  simp

theorem count_catGroups : ∀ gs : List (String × List SheetPdf),
    countTopicHeaders (gs.flatMap categoryLines) = 0
  | [] => rfl
  | g :: gs => by
    rw [List.flatMap_cons, count_append, count_categoryLines, count_catGroups gs]

theorem count_practiceLines (ps : Option PracticeSheets) :
    countTopicHeaders (practiceLines ps) = 0 := by
  cases ps with
  | none => rfl
  | some s =>
    rw [practiceLines]
    by_cases hp : s.pdfs.isEmpty = true
    · rw [if_pos hp]
      rfl
    · rw [if_neg hp]
      rw [count_cons, count_cons, count_cons, count_catGroups]
      have h1 : isTopicHeader ("\n\n" ++ eqRule) = false := rfl
      have h2 : isTopicHeader "📄 PRACTICE SHEETS 📄" = false := rfl
      have h3 : isTopicHeader eqRule = false := by decide
      rw [h1, h2, h3]
      simp

theorem count_headerLines : countTopicHeaders headerLines = 0 := by decide

theorem count_footerLines (pq now : String) :
    countTopicHeaders (footerLines pq now) = 0 := by
  unfold footerLines
  have h1 : isTopicHeader ("\n" ++ eqRule) = false := rfl
  have h2 : isTopicHeader ("🎥 Video Quality: " ++ pyUpper pq) = false := rfl
  have h3 : isTopicHeader ("📅 Generated on: " ++ now) = false := rfl
  have h4 : isTopicHeader eqRule = false := by decide
  simp [count_cons, count_nil, h1, h2, h3, h4]

/-! ### Change points of a sorted name list count its distinct names -/

theorem filter_ne_toFinset (n : String) (ms : List String) :
    (ms.filter (fun m => m ≠ n)).toFinset = ms.toFinset.erase n := by
  ext x
  simp [List.mem_filter, and_comm]

theorem card_insert_eq (a : String) (s : Finset String) :
    (insert a s).card = (s.erase a).card + 1 := by
  by_cases h : a ∈ s
  · rw [Finset.insert_eq_self.mpr h, Finset.card_erase_add_one h]
  · rw [Finset.card_insert_of_not_mem h, Finset.erase_eq_of_not_mem h]

theorem changes_some_eq : ∀ (n : String) (ns : List String),
    ns.Pairwise (fun a b => strLe a b = true) → (∀ m ∈ ns, strLe n m = true) →
    changes (some n) ns = ((ns.filter (fun m => m ≠ n)).toFinset).card
  | _, [], _, _ => rfl
  | n, m :: ms, hp, hall => by
    rw [List.pairwise_cons] at hp
    obtain ⟨hm, hms⟩ := hp
    by_cases hmn : m = n
    · subst hmn
      rw [changes, if_pos rfl, changes_some_eq m ms hms hm]
      have hfil : (m :: ms).filter (fun x => x ≠ m) = ms.filter (fun x => x ≠ m) := by
        rw [List.filter_cons]
        simp
      rw [hfil]
      omega
    · rw [changes, if_neg (by simpa using fun h => hmn h.symm),
        changes_some_eq m ms hms hm]
      have hnm : ∀ x ∈ ms, x ≠ n := by
        intro x hx hxn
        subst hxn
        exact hmn (strLe_antisymm (hm x hx) (hall m (List.mem_cons_self _ _)))
      have hfil : (m :: ms).filter (fun x => x ≠ n) = m :: ms := by
        rw [List.filter_cons]
        rw [if_pos (by simpa using hmn)]
        congr 1
        exact List.filter_eq_self.mpr (by intro x hx; simpa using hnm x hx)
      rw [hfil, List.toFinset_cons, card_insert_eq, filter_ne_toFinset]
      omega

theorem changes_none_eq : ∀ ns : List String,
    ns.Pairwise (fun a b => strLe a b = true) →
    changes none ns = ns.toFinset.card
  | [], _ => rfl
  | n :: ns, hp => by
    rw [List.pairwise_cons] at hp
    rw [changes, if_neg (by simp), changes_some_eq n ns hp.2 hp.1]
    rw [List.toFinset_cons, card_insert_eq, filter_ne_toFinset]
    omega

/-- Permuted lists have the same finset of elements. -/
theorem perm_toFinset_eq {l l' : List String} (h : l.Perm l') :
    l.toFinset = l'.toFinset := by
  ext x
  simp [List.mem_toFinset, h.mem_iff]

/-- The topic names of the sorted class list are pairwise non-decreasing
in the Python string order. -/
theorem sorted_names (classes_data : List Topic) (pq : String) :
    ((sortedClasses classes_data pq).map ClassInfo.topic_name).Pairwise
      (fun a b => strLe a b = true) := by
  rw [List.pairwise_map]
  exact (sortedClasses_sorted classes_data pq).imp classLeR_topic_le

/-! ### Membership of class material in the rendered output -/

theorem mem_classBlock_video (c : ClassInfo) : videoLine c ∈ classBlock c := by
  unfold classBlock
  exact List.mem_append_left _ (List.mem_append_left _ (List.mem_cons_self _ _))

theorem mem_classBlock_pdf {c : ClassInfo} {p : PdfInfo} (hp : p ∈ c.pdfs) :
    pdfLine p ∈ classBlock c := by
  unfold classBlock
  have hne : c.pdfs.isEmpty = false := by
    cases hl : c.pdfs with
    | nil => rw [hl] at hp; cases hp
    | cons a t => rfl
  rw [hne]
  refine List.mem_append_left _ (List.mem_append_right _ ?_)
  simp only [Bool.false_eq_true, if_false]
  exact List.mem_cons_of_mem _ (List.mem_map_of_mem pdfLine hp)

theorem mem_emitClasses_of_mem_block : ∀ (cur : Option String) (l : List ClassInfo)
    (c : ClassInfo), c ∈ l → ∀ (line : String), line ∈ classBlock c →
    line ∈ emitClasses cur l
  | _, [], _, hc, _, _ => absurd hc (List.not_mem_nil _)
  | cur, c0 :: rest, c, hc, line, hline => by
    rw [emitClasses]
    rcases List.mem_cons.mp hc with h | h
    · subst h
      exact List.mem_append_left _ (List.mem_append_right _ hline)
    · exact List.mem_append_right _
        (mem_emitClasses_of_mem_block (some c0.topic_name) rest c h line hline)

theorem mem_buildAllClasses {classes_data : List Topic} {pq : String} {t : Topic}
    {cd : ClassData} {ci : ClassInfo} (ht : t ∈ classes_data) (hcd : cd ∈ t.classes)
    (h : normalizeClass (t.topicName.getD "Unknown Topic") pq cd = some ci) :
    ci ∈ buildAllClasses classes_data pq := by
  unfold buildAllClasses
  rw [List.mem_flatMap]
  exact ⟨t, ht, List.mem_filterMap.mpr ⟨cd, hcd, h⟩⟩

theorem mem_renderLines_of_mem_block {classes_data : List Topic} {pq : String}
    {ci : ClassInfo} (sheets : Option PracticeSheets) (now : String)
    (hmem : ci ∈ buildAllClasses classes_data pq) {line : String}
    (hline : line ∈ classBlock ci) :
    line ∈ renderLines classes_data pq sheets now := by
  unfold renderLines
  have hs : ci ∈ sortedClasses classes_data pq :=
    ((sortedClasses_perm classes_data pq).mem_iff).mpr hmem
  exact List.mem_append_left _ (List.mem_append_left _ (List.mem_append_right _
    (mem_emitClasses_of_mem_block none _ ci hs line hline)))

/-! ## Claims -/

/-- Claim C1, counterexample. The claim says every class entry of every
topic appears in the rendered document, with classes that resolve to no
URL retained and rendered under an explicit unavailable marker. On
`noVideoPayload` (one topic `"T"`, one class `"Algebra 5"` with no
recordings and no link) the rendered document is exactly the six
header/footer lines: the class is omitted entirely, its identification
line is not present, and no unavailable marker is emitted. -/
theorem c1_counterexample :
    renderLines noVideoPayload "720p" none "TS" =
        ["📚 COURSE CONTENT 📚\n", eqRule, "\n" ++ eqRule,
          "🎥 Video Quality: 720P", "📅 Generated on: TS", eqRule] ∧
      buildAllClasses noVideoPayload "720p" = [] ∧
      videoLine ⟨"05", "Algebra 5", "Mr X", "T", "", []⟩ ∉
        renderLines noVideoPayload "720p" none "TS" := by
  refine ⟨by decide, by decide, by decide⟩

/-- Claim C1, amended: in the JSON-path pipeline, classes whose quality
resolution yields no URL (or an empty one) are dropped from the rendered
document; every class entry whose resolution yields a non-empty URL is
rendered (its identification line appears in the output lines). -/
theorem c1_resolved_classes_rendered (classes_data : List Topic) (pq : String)
    (sheets : Option PracticeSheets) (now : String) (t : Topic) (cd : ClassData)
    (ci : ClassInfo) (ht : t ∈ classes_data) (hcd : cd ∈ t.classes)
    (hnorm : normalizeClass (t.topicName.getD "Unknown Topic") pq cd = some ci) :
    videoLine ci ∈ renderLines classes_data pq sheets now :=
  mem_renderLines_of_mem_block sheets now (mem_buildAllClasses ht hcd hnorm)
    (mem_classBlock_video ci)

/-- Witness for C1's amended theorem at `goodPayload`. -/
theorem c1_witness :
    videoLine goodClassInfo ∈ renderLines goodPayload "720p" none "TS" :=
  c1_resolved_classes_rendered goodPayload "720p" none "TS"
    ⟨some "T", [⟨some "Algebra 5", some "Mr X", none,
      [⟨some "720p", some "https://v.mp4"⟩], [⟨some "Notes", some "https://x.pdf"⟩]⟩]⟩
    ⟨some "Algebra 5", some "Mr X", none,
      [⟨some "720p", some "https://v.mp4"⟩], [⟨some "Notes", some "https://x.pdf"⟩]⟩
    goodClassInfo (by decide) (by decide) (by decide)

/-- Claim C2: on a non-empty recordings list the resolver follows
exactly the first-match-wins order (1) first recording with an exact
case-insensitive quality match, (2) otherwise, when the lowercased
request occurs in the fixed ladder, the ladder is walked from that
position toward lower qualities and the first recording matching a
ladder entry wins, (3) otherwise the first recording wins. (With an
empty recordings list none of the three steps applies; that case is
claims C4's.) -/
theorem c2_resolver_order (cd : ClassData) (pq : String) (h : cd.mp4Recordings ≠ []) :
    get_preferred_video_url cd pq =
      match cd.mp4Recordings.find? (fun r => pyLower (r.quality.getD "") = pyLower pq) with
      | some r => r.url
      | none =>
        match (if pyLower pq ∈ qualityPriority then
            (qualityPriority.drop (qualityPriority.indexOf (pyLower pq))).findSome?
              (fun q => cd.mp4Recordings.find? (fun r => pyLower (r.quality.getD "") = q))
          else none) with
        | some r => r.url
        | none => cd.mp4Recordings.head?.bind Recording.url := by
  have hne : cd.mp4Recordings.isEmpty = false := by
    simpa [List.isEmpty_iff] using h
  unfold get_preferred_video_url
  simp only [hne, Bool.false_eq_true, if_false]
  rw [exactLoop_eq_find]
  cases hfind : cd.mp4Recordings.find?
      (fun r => pyLower (r.quality.getD "") = pyLower pq) with
  | some r => rfl
  | none =>
    rw [ladderLoop_eq_findSome]
    have hif : (if qualityPriority.contains (pyLower pq) = true then
        (qualityPriority.drop (qualityPriority.indexOf (pyLower pq))).findSome?
          (fun q => cd.mp4Recordings.find? (fun r => pyLower (r.quality.getD "") = q))
      else none) =
        (if pyLower pq ∈ qualityPriority then
          (qualityPriority.drop (qualityPriority.indexOf (pyLower pq))).findSome?
            (fun q => cd.mp4Recordings.find? (fun r => pyLower (r.quality.getD "") = q))
        else none) := by
      by_cases hcb : qualityPriority.contains (pyLower pq) = true
      · have hc : pyLower pq ∈ qualityPriority := by
          have helem : List.elem (pyLower pq) qualityPriority = true := hcb
          exact List.mem_of_elem_eq_true helem
        rw [if_pos hcb, if_pos hc]
      · have hc : ¬ pyLower pq ∈ qualityPriority := fun hmem => by
          have helem : List.elem (pyLower pq) qualityPriority = true :=
            List.elem_eq_true_of_mem hmem
          exact hcb helem
        rw [if_neg hcb, if_neg hc]
    rw [hif]
    cases hlad : (if pyLower pq ∈ qualityPriority then
        (qualityPriority.drop (qualityPriority.indexOf (pyLower pq))).findSome?
          (fun q => cd.mp4Recordings.find? (fun r => pyLower (r.quality.getD "") = q))
      else none) with
    | some r => rfl
    | none =>
      cases hrec : cd.mp4Recordings with
      | nil => exact absurd hrec h
      | cons r rest => rfl

/-- Witness for C2 at a concrete class with 480p and 240p recordings and
a 720p request (the ladder falls from 720p to 480p). -/
theorem c2_witness :
    get_preferred_video_url twoRecClass "720p" =
      match twoRecClass.mp4Recordings.find?
          (fun r => pyLower (r.quality.getD "") = pyLower "720p") with
      | some r => r.url
      | none =>
        match (if pyLower "720p" ∈ qualityPriority then
            (qualityPriority.drop (qualityPriority.indexOf (pyLower "720p"))).findSome?
              (fun q => twoRecClass.mp4Recordings.find?
                (fun r => pyLower (r.quality.getD "") = q))
          else none) with
        | some r => r.url
        | none => twoRecClass.mp4Recordings.head?.bind Recording.url :=
  c2_resolver_order twoRecClass "720p" (by decide)

/-- Claim C3: with a non-empty recordings list in which every recording
carries a URL, the resolver always returns a URL; the `None` result is
unreachable under this precondition. -/
theorem c3_resolution_total (cd : ClassData) (pq : String)
    (h1 : cd.mp4Recordings ≠ []) (h2 : ∀ r ∈ cd.mp4Recordings, r.url.isSome = true) :
    (get_preferred_video_url cd pq).isSome = true := by
  obtain ⟨r, hr, heq⟩ := gpvu_mem cd pq h1
  rw [heq]
  exact h2 r hr

/-- Witness for C3 at a concrete two-recording class. -/
theorem c3_witness : (get_preferred_video_url twoRecClass "720p").isSome = true :=
  c3_resolution_total twoRecClass "720p" (by decide) (by decide)

/-- Claim C4: with an empty recordings list the resolver returns the
`class_link` exactly when it is present and starts with `http://` or
`https://`, and returns `None` when the link is absent or not a
well-formed http(s) URL. -/
theorem c4_empty_recordings (cd : ClassData) (pq : String)
    (h : cd.mp4Recordings = []) :
    (∀ l, cd.class_link = some l →
        (isHttpUrl l = true → get_preferred_video_url cd pq = some l) ∧
        (isHttpUrl l = false → get_preferred_video_url cd pq = none)) ∧
      (cd.class_link = none → get_preferred_video_url cd pq = none) := by
  have hemp : cd.mp4Recordings.isEmpty = true := by
    simp [List.isEmpty_iff, h]
  unfold get_preferred_video_url
  rw [if_pos hemp]
  constructor
  · intro l hl
    rw [hl]
    unfold classLinkFallback
    constructor
    · intro hurl
      show (if isHttpUrl l = true then some l else none) = some l
      rw [if_pos hurl]
    · intro hurl
      show (if isHttpUrl l = true then some l else none) = none
      rw [if_neg (by simp [hurl])]
  · intro hl
    rw [hl]
    rfl

/-- Witness for C4 at a class with no recordings and a well-formed
https link. -/
theorem c4_witness : get_preferred_video_url linkOnlyClass "720p" = some "https://link" :=
  ((c4_empty_recordings linkOnlyClass "720p" (by decide)).1 "https://link"
    (by decide)).1 (by decide)

/-- Claim C5: the aggregated class list is sorted with primary key the
topic display name under plain code-point lexical string order and
secondary key the class-number string compared lexically; the sorted
list is a permutation of the collected classes; and the class number is
the first run of digits of the title zero-padded to at least two digits,
`"01"` when the title has no digits. -/
theorem c5_sort_order (classes_data : List Topic) (pq : String) :
    (sortedClasses classes_data pq).Pairwise (fun a b =>
        strLt a.topic_name b.topic_name = true ∨
          (a.topic_name = b.topic_name ∧ strLe a.class_number b.class_number = true)) ∧
      (sortedClasses classes_data pq).Perm (buildAllClasses classes_data pq) ∧
      ∀ t : String, extract_class_number t = classNumberSpec t := by
  refine ⟨?_, sortedClasses_perm classes_data pq, ?_⟩
  · refine (sortedClasses_sorted classes_data pq).imp ?_
    intro a b hab
    unfold classLeR classLe at hab
    rw [Bool.or_eq_true, Bool.and_eq_true, decide_eq_true_iff] at hab
    exact hab
  · intro t
    unfold extract_class_number classNumberSpec
    by_cases ht : t = ""
    · subst ht
      rfl
    · rw [if_neg ht]

/-- Claim C6, counterexample. The claim equates the number of emitted
topic headers with the number of distinct topic names present in the
input payload; on `noVideoPayload` the input has one distinct topic name
but zero headers are emitted, because its only class is dropped. -/
theorem c6_counterexample :
    countTopicHeaders (renderLines noVideoPayload "720p" none "TS") = 0 ∧
      ((noVideoPayload.map (fun t => t.topicName.getD "Unknown Topic")).toFinset).card
        = 1 :=
  ⟨by decide, by decide⟩

/-- Claim C6, amended: the number of topic section headers in the
rendered document equals the number of distinct topic names among the
classes that survive collection (those with a resolved, non-empty video
URL). -/
theorem c6_header_count (classes_data : List Topic) (pq : String)
    (sheets : Option PracticeSheets) (now : String) :
    countTopicHeaders (renderLines classes_data pq sheets now) =
      ((buildAllClasses classes_data pq).map ClassInfo.topic_name).toFinset.card := by
  unfold renderLines
  rw [count_append, count_append, count_append, count_headerLines,
    count_practiceLines, count_footerLines, count_emitClasses]
  rw [changes_none_eq _ (sorted_names classes_data pq)]
  rw [perm_toFinset_eq ((sortedClasses_perm classes_data pq).map ClassInfo.topic_name)]
  omega

/-- Claim C7, counterexample. The claim says a missing `title` is read
as `"No Title"`; the code reads it with default `''`, so the normalized
entry of a titleless class carries the empty string, which is not
`"No Title"`. -/
theorem c7_counterexample :
    (normalizeClass "T" "720p" ⟨none, none, some "https://v", [], []⟩).map
        ClassInfo.class_title = some "" ∧
      ("" : String) ≠ "No Title" :=
  ⟨by decide, by decide⟩

/-- Claim C7, amended: when normalizing a primary-shape class record, a
missing `title` is read as the empty string `""` (not `"No Title"`) and
a missing `teacherName` is read as `"Unknown Teacher"`. -/
theorem c7_defaults (topic_name pq : String) (cd : ClassData) (ci : ClassInfo)
    (h : normalizeClass topic_name pq cd = some ci) :
    ci.class_title = cd.title.getD "" ∧
      ci.teacher_name = cd.teacherName.getD "Unknown Teacher" := by
  unfold normalizeClass at h
  cases hv : get_preferred_video_url cd pq with
  | none => simp [hv] at h
  | some u =>
    by_cases hu : u = ""
    · simp [hv, hu] at h
    · simp only [hv, if_neg hu] at h
      cases h
      exact ⟨rfl, rfl⟩

/-- Witness for C7's amended theorem at a class with missing title and
teacher fields. -/
theorem c7_witness :
    (⟨"01", "", "Unknown Teacher", "T", "https://link", []⟩ : ClassInfo).class_title =
        linkOnlyClass.title.getD "" ∧
      (⟨"01", "", "Unknown Teacher", "T", "https://link", []⟩ : ClassInfo).teacher_name =
        linkOnlyClass.teacherName.getD "Unknown Teacher" :=
  c7_defaults "T" "720p" linkOnlyClass
    ⟨"01", "", "Unknown Teacher", "T", "https://link", []⟩ (by decide)

/-- Claim C8, counterexample. The claim says the footer reports total
topics, classes, PDFs and practice sheets; but two inputs with different
numbers of topics, classes, PDFs and sheets produce identical final four
lines (the whole footer), so the footer reports none of those totals. -/
theorem c8_counterexample :
    (renderLines goodPayload "720p" (some oneSheet) "TS").reverse.take 4 =
        (renderLines [] "720p" none "TS").reverse.take 4 ∧
      (buildAllClasses goodPayload "720p").length ≠
        (buildAllClasses [] "720p").length ∧
      goodPayload.length ≠ ([] : List Topic).length ∧
      oneSheet.pdfs.length ≠ 0 :=
  ⟨by decide, by decide, by decide, by decide⟩

/-- Claim C8, amended: for every input the rendered document ends with a
four-line footer consisting of a separator, the quality setting
uppercased, the generation timestamp, and a separator; it reports no
totals. -/
theorem c8_footer (classes_data : List Topic) (pq : String)
    (sheets : Option PracticeSheets) (now : String) :
    (renderLines classes_data pq sheets now).reverse.take 4 =
      [eqRule, "📅 Generated on: " ++ now, "🎥 Video Quality: " ++ pyUpper pq,
        "\n" ++ eqRule] := by
  unfold renderLines footerLines
  rw [List.reverse_append]
  rfl

/-- Claim C9: with a non-empty `mp4Recordings` list the resolver returns
the `url` field of one of those recordings, and the trailing
`class_link` fallback after the first-recording fallback is dead code:
pruning it to `None` does not change the function on any input. -/
theorem c9_dead_fallback (cd : ClassData) (pq : String) :
    get_preferred_video_url cd pq = get_preferred_video_url_pruned cd pq ∧
      (cd.mp4Recordings ≠ [] →
        ∃ r ∈ cd.mp4Recordings, get_preferred_video_url cd pq = r.url) := by
  constructor
  · unfold get_preferred_video_url get_preferred_video_url_pruned
    cases hrec : cd.mp4Recordings with
    | nil => rfl
    | cons r rest => rfl
  · exact gpvu_mem cd pq

/-- Witness for C9 at a concrete two-recording class. -/
theorem c9_witness :
    ∃ r ∈ twoRecClass.mp4Recordings,
      get_preferred_video_url twoRecClass "1080p" = r.url :=
  (c9_dead_fallback twoRecClass "1080p").2 (by decide)

/-- Claim C10, counterexample. The claim says a `classPdf` entry appears
in the rendered document if (and only if) its URL is present and
http(s)-formed; on `noVideoPayload` the class PDF has a well-formed URL
yet its line is absent, because the enclosing class resolves to no video
URL and is dropped together with its PDFs. -/
theorem c10_counterexample :
    isHttpUrl "https://x.pdf" = true ∧
      pdfLine ⟨"Notes", "https://x.pdf", "Mr X"⟩ ∉
        renderLines noVideoPayload "720p" none "TS" :=
  ⟨by decide, by decide⟩

/-- Claim C10, amended: the PDF collection keeps exactly the `classPdf`
entries whose `url` is present and starts with `http://` or `https://`
(naming nameless ones `"Unknown PDF"`), and every collected PDF of a
class that survives collection is rendered; PDFs of dropped classes are
not rendered. -/
theorem c10_pdf_collection (teacher : String) (pdfs : List Pdf) :
    collectPdfs teacher pdfs =
        (pdfs.filter fun p =>
            match p.url with
            | some u => isHttpUrl u
            | none => false).map
          (fun p => ⟨p.name.getD "Unknown PDF", p.url.getD "", teacher⟩) ∧
      ∀ (classes_data : List Topic) (pq : String) (sheets : Option PracticeSheets)
        (now : String) (ci : ClassInfo), ci ∈ buildAllClasses classes_data pq →
        ∀ p ∈ ci.pdfs, pdfLine p ∈ renderLines classes_data pq sheets now := by
  constructor
  · induction pdfs with
    | nil => rfl
    | cons p rest ih =>
      rw [collectPdfs, List.filter_cons]
      cases hu : p.url with
      | none => simpa [hu] using ih
      | some u =>
        cases hh : isHttpUrl u with
        | true => simp [hu, hh, ih]
        | false => simpa [hu, hh] using ih
  · intro classes_data pq sheets now ci hci p hp
    exact mem_renderLines_of_mem_block sheets now hci (mem_classBlock_pdf hp)

/-- Witness for C10 at `goodPayload`, whose kept class carries one
collected PDF. -/
theorem c10_witness :
    pdfLine ⟨"Notes", "https://x.pdf", "Mr X"⟩ ∈
      renderLines goodPayload "720p" none "TS" :=
  (c10_pdf_collection "Mr X" []).2 goodPayload "720p" none "TS" goodClassInfo
    (by decide) ⟨"Notes", "https://x.pdf", "Mr X"⟩ (by decide)

end CourseBot
